import Mathlib

/-!
Shallow embedding of `src/src/main/python/org/broadinstitute/hellbender/svgenotyper/
svgenotyper/model.py` (the SV genotyping Pyro model), together with theorems checking
the natural-language specification against it.

Conventions of the embedding:
* Python floats are embedded as exact rationals `ℚ` (all the checked identities are
  exact arithmetic identities); the genotype-prior computation, which applies a real
  exponential, is embedded polymorphically over a commutative ring so that its theorems
  can instantiate it at `ℝ` with `Real.exp` while witnesses instantiate it at `ℚ`.
* `torch` tensors indexed `[N][V][S]` are embedded as nested lists.
* Fallible Python code (raising `ValueError` / `TypeError`) is embedded with `Except`.
* Sampling statements are embedded by explicit positions into an abstract randomness
  stream `ℕ → ℚ`: each `pyro.sample` at a site consumes one stream value.
-/

namespace SVGenotyper

/-- Modelled from the spec: the `SVTypes` enum lives in `svgenotyper/constants.py`,
which is not under `src/`. `model.py` uses the members `DEL`, `DUP`, `INS`, `INV`;
the spec restricts genotyping to the variant classes Deletion, Duplication, Insertion
and Inversion, so `BND` here stands for any member of the enum outside that set
(an unsupported variant class). -/
inductive SVTypes where
  | DEL
  | DUP
  | INS
  | INV
  | BND
  deriving DecidableEq, Repr

/-- A Python `loss` dict, an association list from key to the recorded sequence
(lines 58-61 of `model.py` only ever touch the keys `epoch` and `elbo`). -/
abbrev LossDict := List (String × List ℚ)

/-- Lines 58-61: `if loss is None: self.loss = ... else: self.loss = loss`. -/
def initLoss (loss : Option LossDict) : LossDict :=
  match loss with
  | none => [("epoch", []), ("elbo", [])]
  | some l => l

/-- Lines 63-70: `self.k` is the explicit `k` when given, else 3 for DEL/INS/INV,
5 for DUP, and any other class raises `ValueError`. -/
def deriveK (svtype : SVTypes) (k : Option ℕ) : Except String ℕ :=
  match k with
  | some kv => Except.ok kv
  | none =>
    match svtype with
    | SVTypes.DEL => Except.ok 3
    | SVTypes.INS => Except.ok 3
    | SVTypes.INV => Except.ok 3
    | SVTypes.DUP => Except.ok 5
    | SVTypes.BND => Except.error "SV type not supported for genotyping."

/-- Lines 72-85: the class-specific list of continuous latent site names,
raising `ValueError` for any other class. -/
def latentSitesFor (svtype : SVTypes) : Except String (List String) :=
  match svtype with
  | SVTypes.DEL =>
      Except.ok ["pi_sr1", "pi_sr2", "pi_pe", "pi_rd", "eps_pe", "eps_sr1", "eps_sr2",
                 "lambda_pe", "lambda_sr1", "lambda_sr2", "phi_pe", "phi_sr1", "phi_sr2"]
  | SVTypes.DUP =>
      Except.ok ["pi_sr1", "pi_sr2", "pi_pe", "pi_rd", "eps_pe", "eps_sr1", "eps_sr2",
                 "lambda_pe", "lambda_sr1", "lambda_sr2", "phi_pe", "phi_sr1", "phi_sr2"]
  | SVTypes.INS =>
      Except.ok ["pi_sr1", "pi_sr2", "eps_sr1", "eps_sr2",
                 "lambda_sr1", "lambda_sr2", "phi_sr1", "phi_sr2"]
  | SVTypes.INV =>
      Except.ok ["pi_sr1", "pi_sr2", "pi_pe", "eps_pe", "eps_sr1", "eps_sr2",
                 "lambda_pe", "lambda_sr1", "lambda_sr2", "phi_pe", "phi_sr1", "phi_sr2"]
  | SVTypes.BND => Except.error "SV type not supported for genotyping."

/-- Lines 87-93: append `eta_q` for K=3, `eta_q` and `eta_r` for K=5, and raise
`ValueError` for any other K. -/
def appendEtaSites (k : ℕ) (sites : List String) : Except String (List String) :=
  if k = 3 then Except.ok (sites ++ ["eta_q"])
  else if k = 5 then Except.ok (sites ++ ["eta_q", "eta_r"])
  else Except.error "Unsupported number of states."

/-- The configuration state established by `SVGenotyperPyroModel.__init__`
(the fields the claims are about; the fixed hyperparameters are omitted). -/
structure ModelConfig where
  k : ℕ
  latentSites : List String
  loss : LossDict
  deriving DecidableEq, Repr

/-- `SVGenotyperPyroModel.__init__` (lines 29-95), in source order: the loss dict is
set first (lines 58-61), then `k` is resolved (lines 63-70), then the class-specific
latent sites (lines 72-85), then the K-dependent eta sites with the K check
(lines 87-93). A raised `ValueError` is an `Except.error`. -/
def initModel (svtype : SVTypes) (k : Option ℕ) (loss : Option LossDict) :
    Except String ModelConfig :=
  let l := initLoss loss
  match deriveK svtype k with
  | Except.error e => Except.error e
  | Except.ok kv =>
    match latentSitesFor svtype with
    | Except.error e => Except.error e
    | Except.ok sites =>
      match appendEtaSites kv sites with
      | Except.error e => Except.error e
      | Except.ok allSites => Except.ok { k := kv, latentSites := allSites, loss := l }

/-! ## Genotype-state prior (lines 144-162)

The code computes `q = 1 - torch.exp(-eta_q)` (and `r` from `torch.exp(-eta_r)`).
The embedding takes the exponential values `exp(-eta_q)`, `exp(-eta_r)` as ring
arguments so the definition stays computable; the theorems instantiate them at
`Real.exp (-etaQ)` for `etaQ ≥ 0`. -/

/-- Lines 145-151 (K=3): with `q = 1 - exp(-eta_q)` and `p = 1 - q`, the prior is
`[p*p, 2*p*q, q*q]`. The argument is the value `exp(-eta_q)`. -/
def zPrior3 {α : Type} [CommRing α] (expNegEtaQ : α) : List α :=
  let q := 1 - expNegEtaQ
  let p := 1 - q
  [p * p, 2 * p * q, q * q]

/-- Lines 152-162 (K=5): with `q = 1 - exp(-eta_q)`, `r = (1-q)*(1 - exp(-eta_r))`
and `p = 1 - q - r`, the prior is `[p*p, 2*q*p, 2*p*r + q*q, 2*q*r, r*r]`.
The arguments are the values `exp(-eta_q)` and `exp(-eta_r)`. -/
def zPrior5 {α : Type} [CommRing α] (expNegEtaQ expNegEtaR : α) : List α :=
  let q := 1 - expNegEtaQ
  let r := (1 - q) * (1 - expNegEtaR)
  let p := 1 - q - r
  [p * p, 2 * q * p, 2 * p * r + q * q, 2 * q * r, r * r]

/-! ## Emission means and z-weights (lines 166-206) -/

/-- Line 170/177/178: `m1_locs = phi * k + eps`, the per-state mean when the
channel supports the variant. -/
def m1Loc (phi eps : ℚ) (k : ℕ) : ℚ := phi * (k : ℚ) + eps

/-- Line 172/180/181: `m0_locs = eps`, constant across states. -/
def m0Loc (eps : ℚ) (_k : ℕ) : ℚ := eps

/-- Line 174/183/184: `locs = (1 - m) * m0_locs + m * m1_locs`, the support-indicator
switch between the two per-state means. -/
def locs (m phi eps : ℚ) (k : ℕ) : ℚ := (1 - m) * m0Loc eps k + m * m1Loc phi eps k

/-- Line 191/198/199: `mu_obs = depth * locs[..., z]`, the realized emission mean
at the gathered state `k = z`. -/
def muObs (depth m phi eps : ℚ) (k : ℕ) : ℚ := depth * locs m phi eps k

/-- Line 186: `z_weights = m_rd * rd_gt_prob + (1 - m_rd) * z_prior`, elementwise
over the K states of one variant row. -/
def zWeights (mRd : ℚ) (rdGtProb zPrior : List ℚ) : List ℚ :=
  List.zipWith (fun a b => mRd * a + (1 - mRd) * b) rdGtProb zPrior

/-! ## Negative-binomial reparameterization (lines 191-206) -/

/-- Line 192/201/202: `var = mu * (1 + lambda)`. -/
def nbVariance (mu lam : ℚ) : ℚ := mu * (1 + lam)

/-- Line 193/203/204: `r = mu * mu / (var - mu)`, the `total_count` (successes)
parameter. The division is unguarded exactly as in the source. -/
def nbTotalCount (mu lam : ℚ) : ℚ := mu * mu / (nbVariance mu lam - mu)

/-- Line 194/205/206: `p = (var - mu) / var`, the `probs` (success-probability)
parameter. -/
def nbProbs (mu lam : ℚ) : ℚ := (nbVariance mu lam - mu) / nbVariance mu lam

/-! ## The discrete-inference draw loop (lines 224-238 and 262-271)

A guide trace records one sampled value per exposed continuous latent site.
Sampling is embedded by positions into a randomness stream `ℕ → ℚ`: a trace drawn
at stream position `pos` consumes one fresh stream value per site. -/

/-- One trace over the given sites, drawn from the stream starting at `pos`:
site `i` of the list receives the stream value at position `pos + i`. -/
def drawSites (sites : List String) (stream : ℕ → ℚ) (pos : ℕ) : List (String × ℚ) :=
  sites.enum.map (fun ia => (ia.2, stream (pos + ia.1)))

/-- One posterior draw as produced by an iteration of the loop: the continuous
latents replayed from a guide trace, and the discrete latents sampled by
`infer_discrete` in that iteration. -/
structure DiscreteDraw where
  contTrace : List (String × ℚ)
  discTrace : List (String × ℚ)
  deriving DecidableEq, Repr

/-- Lines 224-238 (and identically 262-271): `guide_trace` is drawn ONCE, before the
loop (`poutine.trace(self.guide).get_trace(...)` at line 225); `trained_model =
poutine.replay(self.model, trace=guide_trace)` is built once; each of the `n` loop
iterations replays that same guide trace and only the discrete sites are freshly
sampled (`infer_discrete(trained_model, ...)` inside the loop). -/
def inferDiscreteDraws (contSites discSites : List String)
    (contStream discStream : ℕ → ℚ) (n : ℕ) : List DiscreteDraw :=
  let guideTrace := drawSites contSites contStream 0
  (List.range n).map (fun i =>
    { contTrace := guideTrace,
      discTrace := drawSites discSites discStream (i * discSites.length) })

/-- Modelled from the spec (refinement counterpart, not source code): §4.4 step 1,
"Draw one sample of all continuous latents from the VariationalApproximation (a
guide trace)", performed per draw, so draw `i` consumes fresh continuous randomness
of its own. -/
def inferDiscreteDrawsSpec (contSites discSites : List String)
    (contStream discStream : ℕ → ℚ) (n : ℕ) : List DiscreteDraw :=
  (List.range n).map (fun i =>
    { contTrace := drawSites contSites contStream (i * contSites.length),
      discTrace := drawSites discSites discStream (i * discSites.length) })

/-! ## The `_RETURN` value of the model (lines 272-282)

The body of `SVGenotyperPyroModel.model` (lines 97-208) contains no `return`
statement, so in Python the function returns `None`; a Pyro trace of the model
therefore stores `None` as the value of its `_RETURN` node. -/

/-- The `_RETURN` node value of any trace of `model`: `None`, because the model body
has no `return` statement. (`some d` would be a dict from field name to tensor.) -/
def modelReturnValue : Option (List (String × ℚ)) := none

/-- Python subscripting `ret[key]` as used at lines 272-282: subscripting `None`
raises `TypeError`; subscripting a dict without the key raises `KeyError`. -/
def subscriptReturn (ret : Option (List (String × ℚ))) (key : String) :
    Except String ℚ :=
  match ret with
  | none => Except.error "TypeError: NoneType object is not subscriptable"
  | some d =>
    match d.lookup key with
    | none => Except.error "KeyError"
    | some v => Except.ok v

/-- Lines 272-282: the eleven fields infer_discrete_full reads off the `_RETURN`
value of each per-draw trace, in source order. -/
def fullDrawFields : List String :=
  ["z", "r_pe", "r_sr1", "r_sr2", "p_pe", "p_sr1", "p_sr2",
   "m_pe", "m_sr1", "m_sr2", "m_rd"]

/-- One iteration of the loop at lines 267-284: read every field of the `_RETURN`
value; the first raised exception aborts the call. -/
def inferDiscreteFullDraw : Except String (List ℚ) :=
  fullDrawFields.mapM (fun key => subscriptReturn modelReturnValue key)

/-- `infer_discrete_full` (lines 260-325) restricted to what its loop does with the
per-draw traces: `n` iterations, each reading the `_RETURN` fields; an exception in
any iteration propagates out of the call. -/
def inferDiscreteFull (n : ℕ) : Except String (List (List ℚ)) :=
  (List.range n).mapM (fun _ => inferDiscreteFullDraw)

/-! ## Output assembly of `infer_discrete` (lines 217-258) -/

/-- A stacked `[N][V][S]` tensor of per-draw, per-variant, per-sample values. -/
abbrev Mat := List (List (List ℚ))

/-- `np.zeros(m.shape)`: a tensor of zeros with exactly the shape of `m`. -/
def zerosLike (m : Mat) : Mat :=
  m.map (fun vrow => vrow.map (fun srow => srow.map (fun _ => (0 : ℚ))))

/-- The nested dimension profile of a stacked tensor (lengths at every level). -/
def matShape (m : Mat) : List (List ℕ) :=
  m.map (fun vrow => vrow.map List.length)

/-- True when every entry of the tensor is zero. -/
def matAllZero (m : Mat) : Bool :=
  m.all (fun vrow => vrow.all (fun srow => srow.all (fun x => x == 0)))

/-- Lines 219-223: the discrete sites collected for a variant class: always
`z, m_sr1, m_sr2`; `m_pe` added for DEL/DUP/INV; `m_rd` added for DEL/DUP. -/
def discreteSites (svtype : SVTypes) : List String :=
  let sites := ["z", "m_sr1", "m_sr2"]
  let sites :=
    if svtype = SVTypes.DEL ∨ svtype = SVTypes.DUP ∨ svtype = SVTypes.INV
    then sites ++ ["m_pe"] else sites
  if svtype = SVTypes.DEL ∨ svtype = SVTypes.DUP
  then sites ++ ["m_rd"] else sites

/-- The dictionary returned by `infer_discrete` (lines 252-258). -/
structure DiscreteOut where
  z : Mat
  m_pe : Mat
  m_sr1 : Mat
  m_sr2 : Mat
  m_rd : Mat
  deriving Repr

/-- Lines 238-258 of `infer_discrete`: `posterior_samples` is the dict keyed by the
collected sites, `sampled site` standing for the stacked `[N][V][S]` tensor of that
site's sampled values; `m_pe`/`m_rd` are taken from it when present and otherwise
set to `np.zeros(m_sr1.shape)`. -/
def inferDiscreteOut (svtype : SVTypes) (sampled : String → Mat) : DiscreteOut :=
  let sites := discreteSites svtype
  let msr1 := sampled "m_sr1"
  { z := sampled "z",
    m_pe := if "m_pe" ∈ sites then sampled "m_pe" else zerosLike msr1,
    m_sr1 := msr1,
    m_sr2 := sampled "m_sr2",
    m_rd := if "m_rd" ∈ sites then sampled "m_rd" else zerosLike msr1 }

/-! ## Theorems -/

/-- C3: the negative-binomial reparameterization of `model` divides by
`var - mu = mu * lambda` with no guard; the divisor is exactly zero whenever the
channel overdispersion `lambda` is zero (even with mean `mu > 0`, in which case the
numerator `mu * mu` of the `total_count` division is nonzero) or the mean `mu` is
zero, so the division-by-zero branch is reachable. -/
theorem nb_denominator_reachably_zero (mu lam : ℚ) :
    nbVariance mu lam - mu = mu * lam ∧
    (lam = 0 → nbVariance mu lam - mu = 0) ∧
    (mu = 0 → nbVariance mu lam - mu = 0) ∧
    (0 < mu → lam = 0 → nbVariance mu lam - mu = 0 ∧ mu * mu ≠ 0) := by
  have h : nbVariance mu lam - mu = mu * lam := by unfold nbVariance; ring
  refine ⟨h, fun hl => by rw [h, hl, mul_zero], fun hm => by rw [h, hm, zero_mul],
    fun hmu hl => ⟨by rw [h, hl, mul_zero], (mul_pos hmu hmu).ne'⟩⟩

/-- Witness for C3 at `mu = 1`, `lam = 0`: the divisor is exactly zero while the
numerator is nonzero. -/
theorem nb_denominator_reachably_zero_witness :
    (0:ℚ) < 1 ∧ (0:ℚ) = 0 ∧ nbVariance 1 0 - 1 = 0 ∧ (1:ℚ) * 1 ≠ 0 :=
  ⟨one_pos, rfl,
    ((nb_denominator_reachably_zero 1 0).2.2.2 one_pos rfl).1,
    ((nb_denominator_reachably_zero 1 0).2.2.2 one_pos rfl).2⟩

/-- C7: for every mean `mu > 0` and overdispersion `lambda > 0`, the parameters
computed in `model` satisfy `successes = mu / lambda` and
`success-probability = lambda / (1 + lambda)`, and the negative-binomial variance
`r * p / (1 - p)^2` they induce reproduces `mu * (1 + lambda)` exactly, as an
exact rational-arithmetic identity. -/
theorem nb_parameter_identity (mu lam : ℚ) (hmu : 0 < mu) (hlam : 0 < lam) :
    nbTotalCount mu lam = mu / lam ∧
    nbProbs mu lam = lam / (1 + lam) ∧
    nbTotalCount mu lam * nbProbs mu lam / ((1 - nbProbs mu lam) ^ 2)
      = mu * (1 + lam) := by
  have hm : mu ≠ 0 := hmu.ne'
  have hl : lam ≠ 0 := hlam.ne'
  have h1 : (1:ℚ) + lam ≠ 0 := by positivity
  have hrr : nbTotalCount mu lam = mu / lam := by
    unfold nbTotalCount nbVariance
    rw [show mu * (1 + lam) - mu = mu * lam by ring]
    field_simp
    ring
  have hpp : nbProbs mu lam = lam / (1 + lam) := by
    unfold nbProbs nbVariance
    rw [show mu * (1 + lam) - mu = mu * lam by ring]
    field_simp
    ring
  refine ⟨hrr, hpp, ?_⟩
  rw [hrr, hpp]
  have h1p : 1 - lam / (1 + lam) = 1 / (1 + lam) := by field_simp
  rw [h1p]
  field_simp
  ring

/-- Witness for C7 at `mu = 1`, `lam = 1`. -/
theorem nb_parameter_identity_witness :
    ((0:ℚ) < 1 ∧ (0:ℚ) < 1) ∧
    (nbTotalCount 1 1 = 1 / 1 ∧ nbProbs 1 1 = 1 / (1 + 1) ∧
      nbTotalCount 1 1 * nbProbs 1 1 / ((1 - nbProbs 1 1) ^ 2) = 1 * (1 + 1)) :=
  ⟨⟨one_pos, one_pos⟩, nb_parameter_identity 1 1 one_pos one_pos⟩

/-- Helper: a zipWith whose combining function returns its first argument is the
identity on the first list when the lengths agree. -/
theorem zipWith_eq_left (f : ℚ → ℚ → ℚ) (hf : ∀ a b, f a b = a) :
    ∀ (l1 l2 : List ℚ), l1.length = l2.length → List.zipWith f l1 l2 = l1 := by
  intro l1
  induction l1 with
  | nil => intro l2 _; simp
  | cons a t ih =>
    intro l2 h
    cases l2 with
    | nil => simp at h
    | cons b tz =>
      simp only [List.zipWith_cons_cons, hf]
      rw [ih tz (by simpa using h)]

/-- Helper: a zipWith whose combining function returns its second argument is the
identity on the second list when the lengths agree. -/
theorem zipWith_eq_right (f : ℚ → ℚ → ℚ) (hf : ∀ a b, f a b = b) :
    ∀ (l1 l2 : List ℚ), l1.length = l2.length → List.zipWith f l1 l2 = l2 := by
  intro l1
  induction l1 with
  | nil =>
    intro l2 h
    cases l2 with
    | nil => simp
    | cons b tz => simp at h
  | cons a t ih =>
    intro l2 h
    cases l2 with
    | nil => simp at h
    | cons b tz =>
      simp only [List.zipWith_cons_cons, hf]
      rw [ih tz (by simpa using h)]

/-- C5: the categorical weights used to sample `z` (line 186) equal the externally
supplied `rd_gt_prob` row exactly when `m_rd = 1` (independent of the derived
prior, hence of `eta_q`/`eta_r`) and equal the derived genotype prior exactly when
`m_rd = 0`; over the Bernoulli support of `m_rd` the result is always one of the
two rows, never a proper blend. -/
theorem z_weights_binary_switch (mRd : ℚ) (rd zp : List ℚ)
    (hlen : rd.length = zp.length) :
    (mRd = 1 → zWeights mRd rd zp = rd) ∧
    (mRd = 0 → zWeights mRd rd zp = zp) ∧
    (mRd = 0 ∨ mRd = 1 → zWeights mRd rd zp = rd ∨ zWeights mRd rd zp = zp) := by
  have h1 : mRd = 1 → zWeights mRd rd zp = rd := by
    intro h
    subst h
    exact zipWith_eq_left _ (fun a b => by ring) rd zp hlen
  have h0 : mRd = 0 → zWeights mRd rd zp = zp := by
    intro h
    subst h
    exact zipWith_eq_right _ (fun a b => by ring) rd zp hlen
  exact ⟨h1, h0, fun h => h.elim (fun h => Or.inr (h0 h)) (fun h => Or.inl (h1 h))⟩

/-- Witness for C5 on a concrete pair of 2-state rows. -/
theorem z_weights_binary_switch_witness :
    ([(2:ℚ), 8]).length = ([(5:ℚ), 5]).length ∧
    zWeights 1 [(2:ℚ), 8] [(5:ℚ), 5] = [(2:ℚ), 8] ∧
    zWeights 0 [(2:ℚ), 8] [(5:ℚ), 5] = [(5:ℚ), 5] :=
  ⟨rfl, (z_weights_binary_switch 1 [2, 8] [5, 5] rfl).1 rfl,
    (z_weights_binary_switch 0 [2, 8] [5, 5] rfl).2.1 rfl⟩

/-- C6: the realized emission mean of every evidence channel equals
`depth * eps` (independent of the genotype state `k`) when the channel's support
indicator is 0, and equals `depth * (phi * k + eps)` when the indicator is 1 —
affine in `k` with slope `depth * phi`, and strictly increasing in `k` whenever
`depth` and `phi` are positive. -/
theorem emission_mean_switch (depth m phi eps : ℚ) (k : ℕ) :
    (m = 0 → muObs depth m phi eps k = depth * eps) ∧
    (m = 1 → muObs depth m phi eps k = depth * (phi * (k : ℚ) + eps)) ∧
    (m = 1 → muObs depth m phi eps (k + 1) - muObs depth m phi eps k = depth * phi) ∧
    (m = 1 → 0 < depth → 0 < phi →
      muObs depth m phi eps k < muObs depth m phi eps (k + 1)) := by
  refine ⟨fun h => ?_, fun h => ?_, fun h => ?_, fun h hd hp => ?_⟩ <;> subst h
  · unfold muObs locs m0Loc m1Loc; ring
  · unfold muObs locs m0Loc m1Loc; ring
  · unfold muObs locs m0Loc m1Loc; push_cast; ring
  · unfold muObs locs m0Loc m1Loc
    push_cast
    nlinarith [mul_pos hd hp]

/-- Witness for C6 at `depth = 2`, `phi = 3`, `eps = 5`, `k = 4`, both indicator
values. -/
theorem emission_mean_switch_witness :
    ((0:ℚ) = 0 ∧ muObs 2 0 3 5 4 = 2 * 5) ∧
    ((1:ℚ) = 1 ∧ (0:ℚ) < 2 ∧ (0:ℚ) < 3 ∧
      muObs 2 1 3 5 4 = 2 * (3 * (4:ℕ) + 5) ∧ muObs 2 1 3 5 4 < muObs 2 1 3 5 5) :=
  ⟨⟨rfl, (emission_mean_switch 2 0 3 5 4).1 rfl⟩,
   ⟨rfl, by norm_num, by norm_num,
    (emission_mean_switch 2 1 3 5 4).2.1 rfl,
    (emission_mean_switch 2 1 3 5 4).2.2.2 rfl (by norm_num) (by norm_num)⟩⟩

/-- C10: when the `loss` argument is omitted or `None`, the model's loss trace is
initialized to a dict with exactly the keys `epoch` and `elbo`, each mapped to an
empty sequence, and that is the `loss` field of every successful construction
without a loss argument; a supplied loss object is stored as-is. -/
theorem loss_trace_initialization (svtype : SVTypes) (k : Option ℕ) (l : LossDict) :
    (initLoss none).map Prod.fst = ["epoch", "elbo"] ∧
    (∀ p ∈ initLoss none, p.2 = ([] : List ℚ)) ∧
    initLoss (some l) = l ∧
    (∀ cfg, initModel svtype k none = Except.ok cfg →
      cfg.loss = [("epoch", []), ("elbo", [])]) ∧
    (∀ cfg, initModel svtype k (some l) = Except.ok cfg → cfg.loss = l) := by
  refine ⟨rfl, by simp [initLoss], rfl, ?_, ?_⟩ <;>
    · intro cfg h
      unfold initModel at h
      split at h
      · exact absurd h (by simp)
      · split at h
        · exact absurd h (by simp)
        · split at h
          · exact absurd h (by simp)
          · rw [Except.ok.injEq] at h
            subst h
            rfl

/-- Witness for C10: constructing for the Deletion class with no loss argument
yields exactly the two-key empty loss trace. -/
theorem loss_trace_initialization_witness :
    initModel SVTypes.DEL none none = Except.ok
      { k := 3,
        latentSites := ["pi_sr1", "pi_sr2", "pi_pe", "pi_rd", "eps_pe", "eps_sr1",
          "eps_sr2", "lambda_pe", "lambda_sr1", "lambda_sr2", "phi_pe", "phi_sr1",
          "phi_sr2", "eta_q"],
        loss := [("epoch", []), ("elbo", [])] } ∧
    ModelConfig.loss
      { k := 3,
        latentSites := ["pi_sr1", "pi_sr2", "pi_pe", "pi_rd", "eps_pe", "eps_sr1",
          "eps_sr2", "lambda_pe", "lambda_sr1", "lambda_sr2", "phi_pe", "phi_sr1",
          "phi_sr2", "eta_q"],
        loss := [("epoch", []), ("elbo", [])] }
      = [("epoch", []), ("elbo", [])] := by
  constructor
  · rfl
  · exact (loss_trace_initialization SVTypes.DEL none []).2.2.2.1 _ rfl

/-- C2 (code bug): `model` has no return statement, so the `_RETURN` value of every
trace is `None`, and the field reads at lines 272-282 of `infer_discrete_full`
raise `TypeError` on the very first draw: for every positive draw count the call
fails instead of returning the recorded parameters and resampled counts. -/
theorem infer_discrete_full_subscripts_none (n : ℕ) (hn : 0 < n) :
    inferDiscreteFull n
      = Except.error "TypeError: NoneType object is not subscriptable" := by
  unfold inferDiscreteFull
  cases n with
  | zero => exact absurd hn (lt_irrefl 0)
  | succ m =>
    rw [List.range_succ_eq_map, List.mapM_cons]
    rfl

/-- Witness for C2 at draw count 1. -/
theorem infer_discrete_full_subscripts_none_witness :
    0 < 1 ∧ inferDiscreteFull 1
      = Except.error "TypeError: NoneType object is not subscriptable" :=
  ⟨one_pos, infer_discrete_full_subscripts_none 1 one_pos⟩

/-- Helper: `np.zeros(m.shape)` has exactly the shape of `m`. -/
theorem matShape_zerosLike (m : Mat) : matShape (zerosLike m) = matShape m := by
  unfold matShape zerosLike
  simp [List.map_map, Function.comp]

/-- Helper: every entry of `np.zeros(m.shape)` is zero. -/
theorem matAllZero_zerosLike (m : Mat) : matAllZero (zerosLike m) = true := by
  unfold matAllZero zerosLike
  simp [List.all_eq_true]

/-- C9: every `m_*` channel absent from the collected sites of a variant class is
returned by `infer_discrete` as `np.zeros(m_sr1.shape)`; in particular for the
Insertion class both `m_pe` and `m_rd` are all-zero arrays of the same shape as
the sampled `m_sr1` site, regardless of what values the sampler would produce. -/
theorem insertion_zero_channels (svtype : SVTypes) (sampled : String → Mat) :
    ("m_pe" ∉ discreteSites svtype →
      (inferDiscreteOut svtype sampled).m_pe = zerosLike (sampled "m_sr1")) ∧
    ("m_rd" ∉ discreteSites svtype →
      (inferDiscreteOut svtype sampled).m_rd = zerosLike (sampled "m_sr1")) ∧
    (svtype = SVTypes.INS →
      matAllZero (inferDiscreteOut svtype sampled).m_pe = true ∧
      matAllZero (inferDiscreteOut svtype sampled).m_rd = true ∧
      matShape (inferDiscreteOut svtype sampled).m_pe = matShape (sampled "m_sr1") ∧
      matShape (inferDiscreteOut svtype sampled).m_rd = matShape (sampled "m_sr1")) := by
  have hpe : "m_pe" ∉ discreteSites svtype →
      (inferDiscreteOut svtype sampled).m_pe = zerosLike (sampled "m_sr1") := by
    intro h
    simp [inferDiscreteOut, h]
  have hrd : "m_rd" ∉ discreteSites svtype →
      (inferDiscreteOut svtype sampled).m_rd = zerosLike (sampled "m_sr1") := by
    intro h
    simp [inferDiscreteOut, h]
  refine ⟨hpe, hrd, fun hins => ?_⟩
  subst hins
  have h1 : "m_pe" ∉ discreteSites SVTypes.INS := by decide
  have h2 : "m_rd" ∉ discreteSites SVTypes.INS := by decide
  rw [hpe h1, hrd h2]
  exact ⟨matAllZero_zerosLike _, matAllZero_zerosLike _,
    matShape_zerosLike _, matShape_zerosLike _⟩

/-- Witness for C9: Insertion output on a sampler whose every site (including
`m_pe` and `m_rd`) holds the nonzero `[1][1][2]` tensor `[[[3, 7]]]`. -/
theorem insertion_zero_channels_witness :
    matAllZero (inferDiscreteOut SVTypes.INS (fun _ => [[[(3:ℚ), 7]]])).m_pe = true ∧
    matAllZero (inferDiscreteOut SVTypes.INS (fun _ => [[[(3:ℚ), 7]]])).m_rd = true ∧
    matShape (inferDiscreteOut SVTypes.INS (fun _ => [[[(3:ℚ), 7]]])).m_pe
      = matShape [[[(3:ℚ), 7]]] ∧
    matShape (inferDiscreteOut SVTypes.INS (fun _ => [[[(3:ℚ), 7]]])).m_rd
      = matShape [[[(3:ℚ), 7]]] :=
  (insertion_zero_channels SVTypes.INS (fun _ => [[[(3:ℚ), 7]]])).2.2 rfl

/-- C8: constructing `SVGenotyperPyroModel` with a variant class outside the four
supported ones raises `ValueError` in `__init__`, as does an explicit K outside
3 and 5; for every supported class with no explicit K the construction succeeds
with K derived as 3 for DEL/INS/INV and 5 for DUP. -/
theorem construction_errors (svtype : SVTypes) (k : Option ℕ) (loss : Option LossDict) :
    (svtype = SVTypes.BND →
      initModel svtype k loss
        = Except.error "SV type not supported for genotyping.") ∧
    (∀ kv, k = some kv → kv ≠ 3 → kv ≠ 5 →
      initModel svtype k loss =
        (if svtype = SVTypes.BND
         then Except.error "SV type not supported for genotyping."
         else Except.error "Unsupported number of states.")) ∧
    (svtype ≠ SVTypes.BND → k = none →
      Option.map ModelConfig.k (initModel svtype k loss).toOption
        = some (if svtype = SVTypes.DUP then 5 else 3)) := by
  refine ⟨fun h => ?_, fun kv hk h3 h5 => ?_, fun hs hk => ?_⟩
  · subst h
    cases k <;> rfl
  · subst hk
    cases svtype <;>
      simp [initModel, deriveK, latentSitesFor, appendEtaSites, h3, h5]
  · subst hk
    cases svtype
    case BND => exact absurd rfl hs
    all_goals rfl

/-- Witness for C8: an unsupported class errors, Deletion with explicit K = 4
errors, and Duplication with no explicit K succeeds with K = 5. -/
theorem construction_errors_witness :
    (initModel SVTypes.BND none none
      = Except.error "SV type not supported for genotyping.") ∧
    ((4:ℕ) ≠ 3 ∧ (4:ℕ) ≠ 5 ∧
      initModel SVTypes.DEL (some 4) none
        = Except.error "Unsupported number of states.") ∧
    (SVTypes.DUP ≠ SVTypes.BND ∧
      Option.map ModelConfig.k (initModel SVTypes.DUP none none).toOption = some 5) := by
  refine ⟨(construction_errors SVTypes.BND none none).1 rfl,
    ⟨by norm_num, by norm_num, ?_⟩, ⟨by decide, ?_⟩⟩
  · have h := (construction_errors SVTypes.DEL (some 4) none).2.1 4 rfl
      (by norm_num) (by norm_num)
    simpa using h
  · have h := (construction_errors SVTypes.DUP none none).2.2 (by decide) rfl
    simpa using h

/-- C1 (counterexample): the claim that each of the N draws of `infer_discrete`
is produced from its own fresh guide trace is refuted on a concrete run: with one
continuous site, a stream whose successive guide draws differ, and N = 2, the
code's draws differ from the per-draw-resampling behavior the spec describes
(the code's two draws share the guide trace drawn at position 0). -/
theorem fresh_guide_trace_refuted :
    inferDiscreteDraws ["eta_q"] ["z"] (fun i => (i : ℚ)) (fun i => (i : ℚ)) 2 ≠
      inferDiscreteDrawsSpec ["eta_q"] ["z"] (fun i => (i : ℚ)) (fun i => (i : ℚ)) 2 := by
  decide

/-- C1 (amended): every one of the N draws produced by a single call to
`infer_discrete` (or `infer_discrete_full`) replays the one guide trace drawn
before the loop, so all N draws share the same continuous-latent sample and only
the discrete latents are redrawn per iteration. -/
theorem guide_trace_shared_across_draws (contSites discSites : List String)
    (contStream discStream : ℕ → ℚ) (n : ℕ) :
    ∀ d ∈ inferDiscreteDraws contSites discSites contStream discStream n,
      d.contTrace = drawSites contSites contStream 0 := by
  intro d hd
  simp only [inferDiscreteDraws, List.mem_map, List.mem_range] at hd
  obtain ⟨i, _, rfl⟩ := hd
  rfl

/-- Witness for the amended C1: the second draw of a 2-draw run still carries the
guide trace drawn at stream position 0. -/
theorem guide_trace_shared_across_draws_witness :
    ({ contTrace := [("eta_q", (0:ℚ))], discTrace := [("z", (1:ℚ))] } : DiscreteDraw) ∈
      inferDiscreteDraws ["eta_q"] ["z"] (fun i => (i : ℚ)) (fun i => (i : ℚ)) 2 ∧
    DiscreteDraw.contTrace
        { contTrace := [("eta_q", (0:ℚ))], discTrace := [("z", (1:ℚ))] }
      = drawSites ["eta_q"] (fun i => (i : ℚ)) 0 :=
  ⟨by decide,
   guide_trace_shared_across_draws ["eta_q"] ["z"] (fun i => (i : ℚ))
     (fun i => (i : ℚ)) 2 _ (by decide)⟩

/-- C4: for every `eta_q ≥ 0` the K=3 genotype-state prior `[p^2, 2pq, q^2]` with
`q = 1 - exp(-eta_q)`, `p = 1 - q` has all entries nonnegative and summing to
exactly 1, and for every `eta_q, eta_r ≥ 0` the K=5 prior
`[p^2, 2qp, 2pr + q^2, 2qr, r^2]` with `r = (1-q)(1 - exp(-eta_r))`,
`p = 1 - q - r` likewise. -/
theorem genotype_prior_normalized (etaQ etaR : ℝ) (hq : 0 ≤ etaQ) (hr : 0 ≤ etaR) :
    ((∀ x ∈ zPrior3 (Real.exp (-etaQ)), 0 ≤ x) ∧
      (zPrior3 (Real.exp (-etaQ))).sum = 1) ∧
    ((∀ x ∈ zPrior5 (Real.exp (-etaQ)) (Real.exp (-etaR)), 0 ≤ x) ∧
      (zPrior5 (Real.exp (-etaQ)) (Real.exp (-etaR))).sum = 1) := by
  have ha0 : 0 < Real.exp (-etaQ) := Real.exp_pos _
  have ha1 : Real.exp (-etaQ) ≤ 1 := Real.exp_le_one_iff.mpr (by linarith)
  have hb0 : 0 < Real.exp (-etaR) := Real.exp_pos _
  have hb1 : Real.exp (-etaR) ≤ 1 := Real.exp_le_one_iff.mpr (by linarith)
  set a := Real.exp (-etaQ) with hadef
  set b := Real.exp (-etaR) with hbdef
  constructor
  · constructor
    · intro x hx
      simp only [zPrior3, List.mem_cons, List.not_mem_nil, or_false] at hx
      rcases hx with h | h | h <;> subst h <;> nlinarith
    · simp only [zPrior3, List.sum_cons, List.sum_nil]
      ring
  · constructor
    · intro x hx
      simp only [zPrior5, List.mem_cons, List.not_mem_nil, or_false] at hx
      have k1 : (0:ℝ) ≤ 1 - a := by linarith
      have k2 : (0:ℝ) ≤ 1 - b := by linarith
      have k3 : (0:ℝ) ≤ a * b := mul_nonneg ha0.le hb0.le
      have k4 : (0:ℝ) ≤ a * (1 - b) := mul_nonneg ha0.le k2
      rcases hx with h | h | h | h | h <;> subst h <;>
        nlinarith [mul_nonneg k1 k3, mul_nonneg k1 k4, mul_nonneg k3 k4,
          sq_nonneg (a * b), sq_nonneg (1 - a), sq_nonneg (a * (1 - b)),
          mul_nonneg k3 k3, mul_nonneg k4 k4]
    · simp only [zPrior5, List.sum_cons, List.sum_nil]
      ring

/-- Witness for C4 at `eta_q = eta_r = 0`. -/
theorem genotype_prior_normalized_witness :
    ((0:ℝ) ≤ 0 ∧ (0:ℝ) ≤ 0) ∧
    (((∀ x ∈ zPrior3 (Real.exp (-(0:ℝ))), 0 ≤ x) ∧
        (zPrior3 (Real.exp (-(0:ℝ)))).sum = 1) ∧
      ((∀ x ∈ zPrior5 (Real.exp (-(0:ℝ))) (Real.exp (-(0:ℝ))), 0 ≤ x) ∧
        (zPrior5 (Real.exp (-(0:ℝ))) (Real.exp (-(0:ℝ)))).sum = 1)) :=
  ⟨⟨le_refl 0, le_refl 0⟩, genotype_prior_normalized 0 0 (le_refl 0) (le_refl 0)⟩

end SVGenotyper
